import Mathlib

/-!
# Verification of the clipboard YouTube auto-downloader pipeline

Shallow embedding of `youtube_auto_downloader.py` (class
`YouTubeAutoDownloader`): the URL matcher `is_youtube_url`, the dedup
ledger + queue operation `add_to_queue`, the clipboard poller tick
(`monitor_clipboard` loop body), and the sequential worker
(`_download_worker` / `_download_video`).

Strings are modelled as Lean `String` / `List Char`; the Python regular
expressions are specialised to the four fixed patterns of
`self.youtube_patterns`, each of shape
`(https?://)?(www\.)?(CORE[\w-]+)` for a literal core, searched
left-to-right with case-insensitive literal matching and a greedy
`[\w-]+` tail (`\w` modelled as ASCII alphanumeric or underscore).
The external download engine is an oracle `String → DLResult`.
-/

namespace AutoDL

/-- Character class `[\w-]` of the patterns (ASCII model of `\w`). -/
def isWordDash (c : Char) : Bool :=
  c.isAlphanum || c = '_' || c = '-'

/-- Consume the literal `lit` from the front of `s`, comparing characters
case-insensitively (the `re.IGNORECASE` flag); return the rest on success. -/
def dropLitCI : List Char → List Char → Option (List Char)
  | [], s => some s
  | _ :: _, [] => none
  | l :: ls, c :: cs => if l.toLower = c.toLower then dropLitCI ls cs else none

def schemeHttps : List Char := "https://".data
def schemeHttp : List Char := "http://".data
def wwwLit : List Char := "www.".data

/-- Length matched by the optional scheme group `(https?://)?` at the front
of `s`, together with the remaining input. -/
def matchScheme (s : List Char) : Nat × List Char :=
  match dropLitCI schemeHttps s with
  | some r => (schemeHttps.length, r)
  | none =>
    match dropLitCI schemeHttp s with
    | some r => (schemeHttp.length, r)
    | none => (0, s)

/-- Length matched by the optional group `(www\.)?` at the front of `s`. -/
def matchWww (s : List Char) : Nat × List Char :=
  match dropLitCI wwwLit s with
  | some r => (wwwLit.length, r)
  | none => (0, s)

/-- Attempt to match the pattern `(https?://)?(www\.)?(core[\w-]+)` at the
start of `s`; returns the total number of characters of `group(0)`. -/
def matchLenAt (core : List Char) (s : List Char) : Option Nat :=
  let p1 := matchScheme s
  let p2 := matchWww p1.2
  match dropLitCI core p2.2 with
  | none => none
  | some s3 =>
    let tail := s3.takeWhile isWordDash
    if tail.length = 0 then none
    else some (p1.1 + p2.1 + core.length + tail.length)

/-- `re.search` for one pattern: scan start positions left to right and
return the matched substring (`match.group(0)`) at the first position where
the pattern matches. -/
def searchPat (core : List Char) : List Char → Option (List Char)
  | [] => none
  | c :: rest =>
    match matchLenAt core (c :: rest) with
    | some n => some ((c :: rest).take n)
    | none => searchPat core rest

def watchCore : List Char := "youtube.com/watch?v=".data
def beCore : List Char := "youtu.be/".data
def shortsCore : List Char := "youtube.com/shorts/".data
def playlistCore : List Char := "youtube.com/playlist?list=".data

/-- `self.youtube_patterns`, in source order (each represented by its
literal core). -/
def youtube_patterns : List (List Char) :=
  [watchCore, beCore, shortsCore, playlistCore]

/-- The `for pattern in self.youtube_patterns` loop: first pattern whose
search succeeds wins. -/
def searchPatterns : List (List Char) → List Char → Option (List Char)
  | [], _ => none
  | p :: ps, s =>
    match searchPat p s with
    | some m => some m
    | none => searchPatterns ps s

/-- A Python value passed to `is_youtube_url`: a string, or any
non-string value (rejected by the `isinstance(text, str)` guard). -/
inductive PyVal where
  | str (s : String)
  | nonStr
  deriving DecidableEq

/-- `YouTubeAutoDownloader.is_youtube_url`: `None` on empty or non-string
input; otherwise search the patterns in order and return the matched
substring, prefixed with `https://` when it does not start with the
literal `http` (Python's case-sensitive `url.startswith('http')`). -/
def is_youtube_url : PyVal → Option String
  | .nonStr => none
  | .str s =>
    if s = "" then none
    else
      match searchPatterns youtube_patterns s.data with
      | some m =>
        some (String.mk (if "http".data.isPrefixOf m then m else "https://".data ++ m))
      | none => none

/-- Outcome of one invocation of the external download engine
(`ydl.extract_info`): success with a title, or an error/exception with a
message (Python exceptions are caught by the `except` clause and carry
`str(e)`). -/
inductive DLResult where
  | ok (title : String)
  | err (msg : String)
  deriving DecidableEq

/-- Observable lifecycle events (log lines / notifications) emitted by the
pipeline. -/
inductive Event where
  | detected (url : String)
  | dupIgnored (url : String)
  | enqueued (url : String) (depth : Nat)
  | started (url : String)
  | completed (title : String)
  | failed (msg : String)
  deriving DecidableEq

/-- The mutable fields of `YouTubeAutoDownloader` relevant to the
pipeline: the dedup ledger `downloaded_urls`, the poller's
`last_clipboard`, the FIFO `download_queue` (items are `some url`, the
poison pill is `none`, as in the Python `None` sentinel), and the
worker's shared cell `is_downloading` / `current_download`. -/
structure AppState where
  downloaded_urls : Finset String
  last_clipboard : String
  download_queue : List (Option String)
  is_downloading : Bool
  current_download : Option String
  deriving DecidableEq

/-- Field values set in `__init__`. -/
def initState : AppState :=
  { downloaded_urls := ∅
    last_clipboard := ""
    download_queue := []
    is_downloading := false
    current_download := none }

/-- `YouTubeAutoDownloader.add_to_queue`: if the url is already in the
ledger, log and return; otherwise insert it into the ledger and append it
to the queue, notifying with the resulting queue depth. -/
def add_to_queue (st : AppState) (url : String) : AppState × List Event :=
  if url ∈ st.downloaded_urls then
    (st, [Event.dupIgnored url])
  else
    let st' := { st with
      downloaded_urls := insert url st.downloaded_urls
      download_queue := st.download_queue ++ [some url] }
    (st', [Event.enqueued url st'.download_queue.length])

/-- One iteration of the `while True` loop of
`YouTubeAutoDownloader.monitor_clipboard`, given the sampled clipboard
content: if unchanged, do nothing; otherwise record it, run the matcher
and enqueue a detected url. -/
def monitorTick (st : AppState) (clipboard : String) : AppState × List Event :=
  if clipboard = st.last_clipboard then (st, [])
  else
    let st1 := { st with last_clipboard := clipboard }
    match is_youtube_url (.str clipboard) with
    | some url =>
      let p := add_to_queue st1 url
      (p.1, Event.detected url :: p.2)
    | none => (st1, [])

/-- Python slicing `s[:n]`: the first `n` characters of `s`. -/
def pyTake (n : Nat) (s : String) : String := String.mk (s.data.take n)

/-- Lines 209–211 of `_download_video`: under the lock, set
`is_downloading = True` and `current_download = url[:50] + "..."` — the
state while the download of `url` is executing. -/
def startDownloadState (st : AppState) (url : String) : AppState :=
  { st with
    is_downloading := true
    current_download := some (pyTake 50 url ++ "...") }

/-- Events of the `try`/`except` body of `_download_video` for a given
engine outcome: a completion log on success, or a `failed` notification
with the error message truncated to 100 characters (`error_msg[:100]`). -/
def resultEvents : DLResult → List Event
  | .ok title => [Event.completed title]
  | .err msg => [Event.failed (pyTake 100 msg)]

/-- `YouTubeAutoDownloader._download_video`: record the in-flight state,
run the engine (outcome `res`), and in the `finally` block clear
`is_downloading` and `current_download` unconditionally. -/
def download_video (st : AppState) (url : String) (res : DLResult) :
    AppState × List Event :=
  let active := startDownloadState st url
  let final := { active with is_downloading := false, current_download := none }
  (final, Event.started url :: resultEvents res)

/-- Full event block of one worker iteration on `u`: the `started` log
followed by the outcome events of the oracle. -/
def itemEvents (oracle : String → DLResult) (u : String) : List Event :=
  Event.started u :: resultEvents (oracle u)

/-- `YouTubeAutoDownloader._download_worker`: drain the queue
sequentially. The first argument is the pending queue contents (the
worker blocks forever on an empty queue, which we model by returning);
`st.download_queue` is kept equal to the not-yet-popped suffix. Popping
`none` (the poison pill) breaks the loop; popping `some url` runs
`_download_video` to completion before the next pop. -/
def worker_drain : List (Option String) → AppState → (String → DLResult) →
    AppState × List Event
  | [], st, _ => (st, [])
  | none :: rest, st, _ => ({ st with download_queue := rest }, [])
  | some url :: rest, st, oracle =>
    let p := download_video { st with download_queue := rest } url (oracle url)
    let q := worker_drain rest p.1 oracle
    (q.1, p.2 ++ q.2)

/-- Event trace of a full drain, as a function of the queue contents and
the oracle alone. -/
def drainEvents : List (Option String) → (String → DLResult) → List Event
  | [], _ => []
  | none :: _, _ => []
  | some u :: rest, oracle => itemEvents oracle u ++ drainEvents rest oracle

/-- The states at which the worker issues a `pop()` (`download_queue.get()`):
the initial state, then the state after each completed download. A poison
pill ends the sequence. -/
def popStates : List (Option String) → AppState → (String → DLResult) →
    List AppState
  | [], st, _ => [st]
  | none :: _, st, _ => [st]
  | some url :: rest, st, oracle =>
    st :: popStates rest
      (download_video { st with download_queue := rest } url (oracle url)).1 oracle

/-- Queue contents left unconsumed by a full drain: empty unless a poison
pill is hit, in which case the suffix after the pill remains. -/
def remainingQueue : List (Option String) → List (Option String)
  | [] => []
  | none :: rest => rest
  | some _ :: rest => remainingQueue rest

/-- Enqueue a list of urls in order via `add_to_queue` (the producer side,
with no pop in between). -/
def enqueueAll : AppState → List String → AppState
  | st, [] => st
  | st, u :: us => enqueueAll (add_to_queue st u).1 us

/-- The urls whose download was begun, in trace order. -/
def startedOrder (evs : List Event) : List String :=
  evs.filterMap fun e =>
    match e with
    | Event.started u => some u
    | _ => none

/-! ## Basic lemmas about the embedded operations -/

lemma download_video_fst (st : AppState) (url : String) (res : DLResult) :
    (download_video st url res).1 =
      { st with is_downloading := false, current_download := none } := rfl

lemma download_video_snd (st : AppState) (url : String) (res : DLResult) :
    (download_video st url res).2 = Event.started url :: resultEvents res := rfl

lemma add_to_queue_ledger_mono (st : AppState) (url u : String)
    (h : u ∈ st.downloaded_urls) :
    u ∈ (add_to_queue st url).1.downloaded_urls := by
  unfold add_to_queue
  split
  · exact h
  · exact Finset.mem_insert_of_mem h

lemma add_to_queue_mem (st : AppState) (url : String)
    (h : url ∈ st.downloaded_urls) :
    add_to_queue st url = (st, [Event.dupIgnored url]) := by
  simp [add_to_queue, h]

lemma add_to_queue_not_mem (st : AppState) (url : String)
    (h : url ∉ st.downloaded_urls) :
    add_to_queue st url =
      ({ st with
          downloaded_urls := insert url st.downloaded_urls
          download_queue := st.download_queue ++ [some url] },
       [Event.enqueued url (st.download_queue.length + 1)]) := by
  simp [add_to_queue, h]

lemma worker_drain_snd (q : List (Option String)) (st : AppState)
    (oracle : String → DLResult) :
    (worker_drain q st oracle).2 = drainEvents q oracle := by
  induction q generalizing st with
  | nil => rfl
  | cons item rest ih =>
    cases item with
    | none => rfl
    | some url =>
      simp [worker_drain, drainEvents, ih, download_video_snd, itemEvents]

lemma worker_drain_ledger (q : List (Option String)) (st : AppState)
    (oracle : String → DLResult) :
    (worker_drain q st oracle).1.downloaded_urls = st.downloaded_urls := by
  induction q generalizing st with
  | nil => rfl
  | cons item rest ih =>
    cases item with
    | none => rfl
    | some url => simp [worker_drain, ih, download_video_fst]

lemma worker_drain_queue (q : List (Option String)) (st : AppState)
    (oracle : String → DLResult) (h : st.download_queue = q) :
    (worker_drain q st oracle).1.download_queue = remainingQueue q := by
  induction q generalizing st with
  | nil => simpa [worker_drain, remainingQueue] using h
  | cons item rest ih =>
    cases item with
    | none => rfl
    | some url =>
      simp only [worker_drain, remainingQueue]
      exact ih _ (by simp [download_video_fst])

lemma remainingQueue_subset (q : List (Option String)) (x : Option String)
    (h : x ∈ remainingQueue q) : x ∈ q := by
  induction q with
  | nil => simp [remainingQueue] at h
  | cons item rest ih =>
    cases item with
    | none =>
      simp only [remainingQueue] at h
      exact List.mem_cons_of_mem _ h
    | some url =>
      simp only [remainingQueue] at h
      exact List.mem_cons_of_mem _ (ih h)

lemma popStates_cleared (q : List (Option String)) (st : AppState)
    (oracle : String → DLResult)
    (h1 : st.is_downloading = false) (h2 : st.current_download = none) :
    ∀ s ∈ popStates q st oracle,
      s.is_downloading = false ∧ s.current_download = none := by
  induction q generalizing st with
  | nil =>
    intro s hs
    simp only [popStates, List.mem_singleton] at hs
    exact hs ▸ ⟨h1, h2⟩
  | cons item rest ih =>
    cases item with
    | none =>
      intro s hs
      simp only [popStates, List.mem_singleton] at hs
      exact hs ▸ ⟨h1, h2⟩
    | some url =>
      intro s hs
      simp only [popStates, List.mem_cons] at hs
      rcases hs with hs | hs
      · exact hs ▸ ⟨h1, h2⟩
      · exact ih _ (by simp [download_video_fst]) (by simp [download_video_fst]) s hs

lemma drainEvents_map_some (urls : List String) (oracle : String → DLResult) :
    drainEvents (urls.map some) oracle = (urls.map (itemEvents oracle)).flatten := by
  induction urls with
  | nil => rfl
  | cons u us ih => simp [drainEvents, ih]

lemma startedOrder_resultEvents (r : DLResult) :
    startedOrder (resultEvents r) = [] := by
  cases r <;> rfl

lemma startedOrder_append (l₁ l₂ : List Event) :
    startedOrder (l₁ ++ l₂) = startedOrder l₁ ++ startedOrder l₂ := by
  simp [startedOrder]

lemma startedOrder_itemEvents (oracle : String → DLResult) (u : String) :
    startedOrder (itemEvents oracle u) = [u] := by
  cases h : oracle u <;> simp only [itemEvents, resultEvents, h] <;> rfl

lemma startedOrder_join_itemEvents (urls : List String)
    (oracle : String → DLResult) :
    startedOrder ((urls.map (itemEvents oracle)).flatten) = urls := by
  induction urls with
  | nil => rfl
  | cons u us ih =>
    simp only [List.map_cons, List.flatten_cons, startedOrder_append, ih,
      startedOrder_itemEvents]
    rfl

lemma enqueueAll_spec (urls : List String) (st : AppState)
    (hnd : urls.Nodup) (hfresh : ∀ u ∈ urls, u ∉ st.downloaded_urls) :
    (enqueueAll st urls).download_queue = st.download_queue ++ urls.map some ∧
    (enqueueAll st urls).is_downloading = st.is_downloading ∧
    (enqueueAll st urls).current_download = st.current_download := by
  induction urls generalizing st with
  | nil => simp [enqueueAll]
  | cons u us ih =>
    have hu : u ∉ st.downloaded_urls := hfresh u (by simp)
    have hstep : (add_to_queue st u).1 =
        { st with
          downloaded_urls := insert u st.downloaded_urls
          download_queue := st.download_queue ++ [some u] } := by
      simp [add_to_queue, hu]
    have hnd' : us.Nodup := (List.nodup_cons.mp hnd).2
    have hne : u ∉ us := (List.nodup_cons.mp hnd).1
    have hfresh' : ∀ v ∈ us, v ∉ (add_to_queue st u).1.downloaded_urls := by
      intro v hv
      rw [hstep]
      simp only [Finset.mem_insert, not_or]
      exact ⟨fun hvu => hne (hvu ▸ hv), hfresh v (List.mem_cons_of_mem _ hv)⟩
    have := ih (add_to_queue st u).1 hnd' hfresh'
    rw [enqueueAll]
    refine ⟨?_, ?_, ?_⟩
    · rw [this.1, hstep]
      simp
    · rw [this.2.1, hstep]
    · rw [this.2.2, hstep]

lemma searchPatterns_nil (ps : List (List Char)) :
    searchPatterns ps [] = none := by
  induction ps with
  | nil => rfl
  | cons p ps ih => simpa [searchPatterns, searchPat] using ih

lemma is_youtube_url_of_search (s : String) (m : List Char)
    (h : searchPatterns youtube_patterns s.data = some m) :
    is_youtube_url (PyVal.str s) =
      some (String.mk
        (if "http".data.isPrefixOf m then m else "https://".data ++ m)) := by
  have hs : s ≠ "" := by
    intro hs
    rw [hs] at h
    rw [show ("" : String).data = [] from rfl, searchPatterns_nil] at h
    exact Option.noConfusion h
  simp only [is_youtube_url, if_neg hs, h]

/-! ## Claim theorems -/

/-- C1: Deduplicated enqueue is idempotent: for a link already in the
ledger, `add_to_queue` leaves queue depth and ledger size unchanged;
no pipeline operation (`add_to_queue`, a poller tick, a download — even a
failed one — or a worker drain) ever removes a ledger entry; and
submitting the same fresh link twice before the worker pops grows ledger
and queue by exactly 1 each, not 2. -/
theorem add_to_queue_dedup_idempotent :
    (∀ st url, url ∈ st.downloaded_urls →
      (add_to_queue st url).1.download_queue.length = st.download_queue.length ∧
      (add_to_queue st url).1.downloaded_urls.card = st.downloaded_urls.card) ∧
    (∀ st url u, u ∈ st.downloaded_urls →
      u ∈ (add_to_queue st url).1.downloaded_urls) ∧
    (∀ st clipboard u, u ∈ st.downloaded_urls →
      u ∈ (monitorTick st clipboard).1.downloaded_urls) ∧
    (∀ st url res u, u ∈ st.downloaded_urls →
      u ∈ (download_video st url res).1.downloaded_urls) ∧
    (∀ q st oracle u, u ∈ st.downloaded_urls →
      u ∈ (worker_drain q st oracle).1.downloaded_urls) ∧
    (∀ st url, url ∉ st.downloaded_urls →
      (add_to_queue (add_to_queue st url).1 url).1.downloaded_urls.card =
        st.downloaded_urls.card + 1 ∧
      (add_to_queue (add_to_queue st url).1 url).1.download_queue.length =
        st.download_queue.length + 1) := by
  refine ⟨?_, ?_, ?_, ?_, ?_, ?_⟩
  · intro st url h
    rw [add_to_queue_mem st url h]
    exact ⟨rfl, rfl⟩
  · intro st url u h
    exact add_to_queue_ledger_mono st url u h
  · intro st clipboard u h
    unfold monitorTick
    by_cases hc : clipboard = st.last_clipboard
    · simp only [if_pos hc]
      exact h
    · simp only [if_neg hc]
      cases hm : is_youtube_url (.str clipboard) with
      | some url => exact add_to_queue_ledger_mono _ url u h
      | none => exact h
  · intro st url res u h
    simpa [download_video_fst] using h
  · intro q st oracle u h
    rw [worker_drain_ledger]
    exact h
  · intro st url h
    rw [add_to_queue_not_mem st url h,
      add_to_queue_mem _ url (Finset.mem_insert_self url _)]
    exact ⟨Finset.card_insert_of_not_mem h, by simp⟩

/-- C1 witness: concrete double submission of a fresh link from the
initial state grows ledger size and queue depth by exactly one each. -/
theorem add_to_queue_dedup_idempotent_witness :
    (add_to_queue (add_to_queue initState "https://youtu.be/a").1
        "https://youtu.be/a").1.downloaded_urls.card =
      initState.downloaded_urls.card + 1 ∧
    (add_to_queue (add_to_queue initState "https://youtu.be/a").1
        "https://youtu.be/a").1.download_queue.length =
      initState.download_queue.length + 1 :=
  add_to_queue_dedup_idempotent.2.2.2.2.2 initState "https://youtu.be/a"
    (by simp [initState])

/-- C2: Strict FIFO execution: enqueueing distinct fresh links L1…LN in
order (no pop in between) puts exactly them in the queue in order; the
single worker's event trace is the concatenation of the per-item blocks
(each item fully resolved before the next is popped), the downloads begin
in exactly the enqueue order, and every pop is issued while no download
is in flight. -/
theorem worker_fifo_order (urls : List String) (oracle : String → DLResult)
    (hnd : urls.Nodup) :
    (enqueueAll initState urls).download_queue = urls.map some ∧
    (worker_drain (enqueueAll initState urls).download_queue
        (enqueueAll initState urls) oracle).2 =
      (urls.map (itemEvents oracle)).flatten ∧
    startedOrder (worker_drain (enqueueAll initState urls).download_queue
        (enqueueAll initState urls) oracle).2 = urls ∧
    ∀ s ∈ popStates (enqueueAll initState urls).download_queue
        (enqueueAll initState urls) oracle, s.is_downloading = false := by
  have hspec := enqueueAll_spec urls initState hnd (by simp [initState])
  have hq : (enqueueAll initState urls).download_queue = urls.map some := by
    simpa [initState] using hspec.1
  have hev : (worker_drain (enqueueAll initState urls).download_queue
      (enqueueAll initState urls) oracle).2 =
      (urls.map (itemEvents oracle)).flatten := by
    rw [worker_drain_snd, hq, drainEvents_map_some]
  refine ⟨hq, hev, ?_, ?_⟩
  · rw [hev, startedOrder_join_itemEvents]
  · intro s hs
    exact (popStates_cleared _ _ oracle
      (by rw [hspec.2.1]; rfl) (by rw [hspec.2.2]; rfl) s hs).1

/-- C2 witness: two concrete distinct links are downloaded in enqueue
order, one fully after the other. -/
theorem worker_fifo_order_witness :
    (enqueueAll initState ["https://youtu.be/a", "https://youtu.be/b"]).download_queue =
      ["https://youtu.be/a", "https://youtu.be/b"].map some ∧
    (worker_drain
        (enqueueAll initState ["https://youtu.be/a", "https://youtu.be/b"]).download_queue
        (enqueueAll initState ["https://youtu.be/a", "https://youtu.be/b"])
        (fun _ => DLResult.ok "t")).2 =
      (["https://youtu.be/a", "https://youtu.be/b"].map
        (itemEvents (fun _ => DLResult.ok "t"))).flatten ∧
    startedOrder (worker_drain
        (enqueueAll initState ["https://youtu.be/a", "https://youtu.be/b"]).download_queue
        (enqueueAll initState ["https://youtu.be/a", "https://youtu.be/b"])
        (fun _ => DLResult.ok "t")).2 =
      ["https://youtu.be/a", "https://youtu.be/b"] ∧
    ∀ s ∈ popStates
        (enqueueAll initState ["https://youtu.be/a", "https://youtu.be/b"]).download_queue
        (enqueueAll initState ["https://youtu.be/a", "https://youtu.be/b"])
        (fun _ => DLResult.ok "t"), s.is_downloading = false :=
  worker_fifo_order ["https://youtu.be/a", "https://youtu.be/b"]
    (fun _ => DLResult.ok "t") (by decide)

/-- C3: Unconditional release of the in-flight record: after a download
attempt completes — success, error, or exception — `current_download` is
`none` and `is_downloading` is `false`; consequently every state at which
the worker issues a pop after its first one has the cell cleared. -/
theorem download_clears_state :
    (∀ st url res,
      (download_video st url res).1.current_download = none ∧
      (download_video st url res).1.is_downloading = false) ∧
    (∀ q st oracle, ∀ s ∈ (popStates q st oracle).tail,
      s.current_download = none ∧ s.is_downloading = false) := by
  constructor
  · intro st url res
    simp [download_video_fst]
  · intro q st oracle s hs
    match q with
    | [] => simp [popStates] at hs
    | none :: rest => simp [popStates] at hs
    | some url :: rest =>
      have := popStates_cleared rest
        (download_video { st with download_queue := rest } url (oracle url)).1 oracle
        (by simp [download_video_fst]) (by simp [download_video_fst]) s
        (by simpa [popStates] using hs)
      exact ⟨this.2, this.1⟩

/-- C3 witness: concrete download attempt whose completion leaves the
cell cleared, and the concrete second pop state is cleared. -/
theorem download_clears_state_witness :
    (download_video initState "https://youtu.be/a" (DLResult.err "boom")).1.current_download
        = none ∧
    (download_video initState "https://youtu.be/a" (DLResult.err "boom")).1.is_downloading
        = false :=
  download_clears_state.2 [some "https://youtu.be/a"] initState
    (fun _ => DLResult.err "boom")
    (download_video { initState with download_queue := [] } "https://youtu.be/a"
      (DLResult.err "boom")).1
    (by simp [popStates])

/-- C4 counterexample: while the worker is executing the download of the
canonical link below, `current_download` does not contain that Link — the
code stores `url[:50] + "..."` (and records no start time at all), so the
claim that the record contains the canonical Link fails at this input. -/
theorem current_download_not_canonical_link :
    (startDownloadState initState
        "https://www.youtube.com/watch?v=abc123XYZ9").current_download ≠
      some "https://www.youtube.com/watch?v=abc123XYZ9" := by
  decide

/-- C4 (amended): at every instant `current_download` references at most
one string; while the worker executes a download of link L it is non-null
and holds the first 50 characters of L followed by `"..."` (no start time
is recorded), and after the attempt ends it is null with
`is_downloading` false. -/
theorem current_download_truncated_inv :
    (∀ st url,
      (startDownloadState st url).current_download =
        some (pyTake 50 url ++ "...") ∧
      (startDownloadState st url).is_downloading = true) ∧
    (∀ st url res,
      (download_video st url res).1.current_download = none ∧
      (download_video st url res).1.is_downloading = false) ∧
    (∀ st : AppState, ∀ u v : String,
      st.current_download = some u → st.current_download = some v → u = v) := by
  refine ⟨fun st url => ⟨rfl, rfl⟩, fun st url res => ?_, fun st u v hu hv => ?_⟩
  · simp [download_video_fst]
  · rw [hu] at hv
    exact Option.some_inj.mp hv

/-- C4 amended witness: concrete in-flight record and uniqueness at a
concrete state. -/
theorem current_download_truncated_inv_witness :
    (startDownloadState initState "https://youtu.be/a").current_download =
      some (pyTake 50 "https://youtu.be/a" ++ "...") ∧
    ("https://youtu.be/a" : String) = "https://youtu.be/a" :=
  ⟨(current_download_truncated_inv.1 initState "https://youtu.be/a").1,
   current_download_truncated_inv.2.2
     { initState with current_download := some "https://youtu.be/a" }
     "https://youtu.be/a" "https://youtu.be/a" rfl rfl⟩

/-- C5: Failure isolation: with A at the head of the queue and B behind
it, an engine error on A produces exactly A's `started`/`failed` events
followed by B's `started` and outcome events (the loop neither aborts nor
re-enqueues A), A is still in the ledger afterwards, and A is not in the
queue left after the drain. -/
theorem worker_failure_isolation (st : AppState) (rest : List (Option String))
    (A B : String) (oracle : String → DLResult) (msg : String)
    (hA : oracle A = DLResult.err msg)
    (hled : A ∈ st.downloaded_urls)
    (hq : st.download_queue = some A :: some B :: rest)
    (hrest : some A ∉ rest) :
    (worker_drain (some A :: some B :: rest) st oracle).2 =
      (Event.started A :: [Event.failed (pyTake 100 msg)]) ++
        (Event.started B :: resultEvents (oracle B)) ++ drainEvents rest oracle ∧
    A ∈ (worker_drain (some A :: some B :: rest) st oracle).1.downloaded_urls ∧
    some A ∉ (worker_drain (some A :: some B :: rest) st oracle).1.download_queue := by
  refine ⟨?_, ?_, ?_⟩
  · rw [worker_drain_snd]
    simp [drainEvents, itemEvents, hA, resultEvents]
  · rw [worker_drain_ledger]
    exact hled
  · rw [worker_drain_queue _ _ _ hq]
    intro hmem
    exact hrest (remainingQueue_subset rest (some A)
      (by simpa [remainingQueue] using hmem))

/-- C5 witness: concrete queue [A, B], the engine fails on A, and B is
still attempted next. -/
theorem worker_failure_isolation_witness :
    (worker_drain [some "https://youtu.be/a", some "https://youtu.be/b"]
        { initState with
          downloaded_urls :=
            insert "https://youtu.be/a" (insert "https://youtu.be/b" ∅)
          download_queue := [some "https://youtu.be/a", some "https://youtu.be/b"] }
        (fun u => if u = "https://youtu.be/a" then DLResult.err "boom"
          else DLResult.ok "t")).2 =
      (Event.started "https://youtu.be/a" ::
          [Event.failed (pyTake 100 "boom")]) ++
        (Event.started "https://youtu.be/b" ::
          resultEvents ((fun u => if u = "https://youtu.be/a" then DLResult.err "boom"
            else DLResult.ok "t") "https://youtu.be/b")) ++
        drainEvents []
          (fun u => if u = "https://youtu.be/a" then DLResult.err "boom"
            else DLResult.ok "t") ∧
    "https://youtu.be/a" ∈
      (worker_drain [some "https://youtu.be/a", some "https://youtu.be/b"]
        { initState with
          downloaded_urls :=
            insert "https://youtu.be/a" (insert "https://youtu.be/b" ∅)
          download_queue := [some "https://youtu.be/a", some "https://youtu.be/b"] }
        (fun u => if u = "https://youtu.be/a" then DLResult.err "boom"
          else DLResult.ok "t")).1.downloaded_urls ∧
    some "https://youtu.be/a" ∉
      (worker_drain [some "https://youtu.be/a", some "https://youtu.be/b"]
        { initState with
          downloaded_urls :=
            insert "https://youtu.be/a" (insert "https://youtu.be/b" ∅)
          download_queue := [some "https://youtu.be/a", some "https://youtu.be/b"] }
        (fun u => if u = "https://youtu.be/a" then DLResult.err "boom"
          else DLResult.ok "t")).1.download_queue :=
  worker_failure_isolation _ [] "https://youtu.be/a" "https://youtu.be/b" _ "boom"
    (by simp) (by simp) rfl (by simp)

/-- C6: Poison-pill termination: popping the poison sentinel `none` ends
the drain with no events (so the download operation is not invoked) and a
state identical to the pre-pop state except that the sentinel has been
removed from the queue — ledger and Current Download State untouched;
popping any non-poison value does invoke the download (a `started` event
for it is emitted); and the sentinel is distinct from every real link. -/
theorem worker_poison_pill :
    (∀ st rest oracle,
      worker_drain (none :: rest) st oracle =
        ({ st with download_queue := rest }, [])) ∧
    (∀ st url rest oracle,
      Event.started url ∈ (worker_drain (some url :: rest) st oracle).2) ∧
    (∀ url : String, (none : Option String) ≠ some url) := by
  refine ⟨fun st rest oracle => rfl, fun st url rest oracle => ?_,
    fun url => Option.noConfusion⟩
  rw [worker_drain_snd]
  simp [drainEvents, itemEvents]

/-- C7 counterexample: the input below contains the scheme `HTTP://`
(uppercase, matched because matching is case-insensitive), yet the
matcher returns it with a second `https://` prefix prepended — because
the normalization test `url.startswith('http')` is case-sensitive. The
claim that a substring with a scheme in any letter case is returned with
exactly that one scheme is false at this input. -/
theorem uppercase_scheme_double_prefix :
    is_youtube_url (PyVal.str "HTTP://youtube.com/watch?v=abc") =
      some "https://HTTP://youtube.com/watch?v=abc" ∧
    ("https://HTTP://youtube.com/watch?v=abc" : String) ≠
      "HTTP://youtube.com/watch?v=abc" := by
  exact ⟨by decide, by decide⟩

/-- C7 (amended): whenever some pattern matches, the matcher returns the
matched substring with `https://` prepended if and only if the substring
does not start with the literal lowercase `http`; in particular a match
whose scheme is written in lowercase is returned unchanged, while a
matched scheme whose first four characters are not exactly `http` (e.g.
uppercase `HTTP://`) receives a second prefix. -/
theorem is_youtube_url_scheme_normalization (s : String) (m : List Char)
    (h : searchPatterns youtube_patterns s.data = some m) :
    is_youtube_url (PyVal.str s) =
      some (String.mk
        (if "http".data.isPrefixOf m then m else "https://".data ++ m)) :=
  is_youtube_url_of_search s m h

/-- C7 amended witness: the spec's scenario input, whose match already
carries a lowercase scheme and is returned unchanged. -/
theorem is_youtube_url_scheme_normalization_witness :
    is_youtube_url (PyVal.str "check this out https://youtu.be/abc123XYZ9 nice") =
      some "https://youtu.be/abc123XYZ9" :=
  is_youtube_url_scheme_normalization
    "check this out https://youtu.be/abc123XYZ9 nice"
    "https://youtu.be/abc123XYZ9".data (by decide)

/-- C8: Link Matcher totality: the matcher is a total function (the
embedding returns for every input), and returns the no-match result
`none` on the empty string and on every non-string value. -/
theorem is_youtube_url_total_on_degenerate :
    (∀ v : PyVal, is_youtube_url v = none ∨ ∃ u, is_youtube_url v = some u) ∧
    is_youtube_url (PyVal.str "") = none ∧
    is_youtube_url PyVal.nonStr = none := by
  refine ⟨fun v => ?_, rfl, rfl⟩
  cases h : is_youtube_url v with
  | none => exact Or.inl rfl
  | some u => exact Or.inr ⟨u, rfl⟩

/-- C9: Unchanged-buffer tick is a no-op: when the sampled clipboard
equals the last-seen content, the tick returns the state unchanged
(ledger, queue, last-seen content and Current Download State included)
and emits no event. -/
theorem monitor_tick_unchanged_noop (st : AppState) (clipboard : String)
    (h : clipboard = st.last_clipboard) :
    monitorTick st clipboard = (st, []) := by
  simp [monitorTick, h]

/-- C9 witness: the initial state with an unchanged (empty) clipboard. -/
theorem monitor_tick_unchanged_noop_witness :
    monitorTick initState "" = (initState, []) :=
  monitor_tick_unchanged_noop initState "" rfl

/-- C10: Pattern-order precedence: the pattern list is exactly
watch-page, short-link, shorts, playlist in that order; a match of the
first listed pattern decides the search regardless of the later ones; and
hence whenever the watch-page pattern matches somewhere in the input, its
match is the one returned (normalized), even if a short-link match occurs
earlier in the string. -/
theorem pattern_order_precedence :
    youtube_patterns = [watchCore, beCore, shortsCore, playlistCore] ∧
    (∀ (p : List Char) (ps : List (List Char)) (s m : List Char),
      searchPat p s = some m → searchPatterns (p :: ps) s = some m) ∧
    (∀ (s : String) (m : List Char), searchPat watchCore s.data = some m →
      is_youtube_url (PyVal.str s) =
        some (String.mk
          (if "http".data.isPrefixOf m then m else "https://".data ++ m))) := by
  have hfirst : ∀ (p : List Char) (ps : List (List Char)) (s m : List Char),
      searchPat p s = some m → searchPatterns (p :: ps) s = some m := by
    intro p ps s m h
    simp [searchPatterns, h]
  refine ⟨rfl, hfirst, fun s m h => ?_⟩
  exact is_youtube_url_of_search s m (hfirst watchCore _ s.data m h)

/-- C10 witness: an input where a short-link-form match occurs strictly
earlier in the string than a watch-page-form match; the watch-page match
is returned. -/
theorem pattern_order_precedence_witness :
    is_youtube_url
        (PyVal.str "see https://youtu.be/abc123 and https://www.youtube.com/watch?v=def456") =
      some "https://www.youtube.com/watch?v=def456" :=
  pattern_order_precedence.2.2
    "see https://youtu.be/abc123 and https://www.youtube.com/watch?v=def456"
    "https://www.youtube.com/watch?v=def456".data (by decide)

end AutoDL
